import Mathlib

/-
Verification development for the rxjs-easing-animate repository.

The numeric model uses the real numbers for JavaScript `number` values.
All definitions are shallow embeddings of the corresponding TypeScript
functions from `src/main.ts` and `src/configs/easing-functions.ts`;
the reactive streams are modelled as functions from the (finite) list of
values the upstream source emitted during a run to the list of values
the stream emits.
-/

noncomputable section

open Classical

/-- Model of the Coordinate interface: x is a time fraction, y a value
fraction. -/
structure Coordinate where
  x : ℝ
  y : ℝ

/-- Model of the Line interface; the TypeScript fields are named `from`
and `to`, which are keywords in Lean, hence `lineFrom` and `lineTo`. -/
structure Line where
  lineFrom : Coordinate
  lineTo : Coordinate

/-- Model of the Axis interface. -/
structure Axis where
  min : ℝ
  max : ℝ
  edge : ℝ
  delta : ℝ

/-- Model of the Graph interface: one Axis per dimension. -/
structure Graph where
  x : Axis
  y : Axis

/-- An easing function maps (elapsed, start, delta, duration) to a value. -/
def EasingFn : Type := ℝ → ℝ → ℝ → ℝ → ℝ

/-- Model of the AnimationOptions interface; the TypeScript fields are
named `from` and `to`, which are keywords in Lean, hence `fromValue` and
`toValue`. -/
structure AnimationOptions where
  fromValue : ℝ
  toValue : ℝ
  duration : ℝ
  easingFunction : EasingFn

theorem Coordinate.ext_iff' (a b : Coordinate) : a = b ↔ a.x = b.x ∧ a.y = b.y := by
  constructor
  · rintro rfl; exact ⟨rfl, rfl⟩
  · rintro ⟨h1, h2⟩; cases a; cases b; simp_all

/-! ## The easing-function catalogue (src/configs/easing-functions.ts)

Each function is transcribed from the TypeScript source; JavaScript's
in-place mutations of the `elapsed` parameter (`elapsed /= duration`,
`elapsed -= c`, `--elapsed`) become `let` rebindings.  `Math.pow` is
`Real.rpow`, `Math.sqrt` is `Real.sqrt`, `Math.PI` is `Real.pi`.
The three `Back` variants take an optional fifth parameter `s` in the
source that every call site leaves undefined, so its default `1.70158`
is inlined. -/

def easeOutBounce : EasingFn := fun elapsed start delta duration =>
  let e := elapsed / duration;
  if e < 1 / 2.75 then
    delta * (7.5625 * e * e) + start
  else if e < 2 / 2.75 then
    let e := e - 1.5 / 2.75;
    delta * (7.5625 * e * e + 0.75) + start
  else if e < 2.5 / 2.75 then
    let e := e - 2.25 / 2.75;
    delta * (7.5625 * e * e + 0.9375) + start
  else
    let e := e - 2.625 / 2.75;
    delta * (7.5625 * e * e + 0.984375) + start

def easeInBounce : EasingFn := fun elapsed start delta duration =>
  delta - easeOutBounce (duration - elapsed) 0 delta duration + start

def easeInOutBounce : EasingFn := fun elapsed start delta duration =>
  if elapsed < duration / 2 then easeInBounce (elapsed * 2) 0 delta duration * 0.5 + start
  else easeOutBounce (elapsed * 2 - duration) 0 delta duration * 0.5 + delta * 0.5 + start

def easeInQuad : EasingFn := fun elapsed start delta duration =>
  let e := elapsed / duration;
  delta * e * e + start

def easeOutQuad : EasingFn := fun elapsed start delta duration =>
  let e := elapsed / duration;
  -delta * e * (e - 2) + start

def easeInOutQuad : EasingFn := fun elapsed start delta duration =>
  let e := elapsed / (duration / 2);
  if e < 1 then delta / 2 * e * e + start
  else
    let e := e - 1;
    -delta / 2 * (e * (e - 2) - 1) + start

def easeInCubic : EasingFn := fun elapsed start delta duration =>
  let e := elapsed / duration;
  delta * e * e * e + start

def easeOutCubic : EasingFn := fun elapsed start delta duration =>
  let e := elapsed / duration - 1;
  delta * (e * e * e + 1) + start

def easeInOutCubic : EasingFn := fun elapsed start delta duration =>
  let e := elapsed / (duration / 2);
  if e < 1 then delta / 2 * e * e * e + start
  else
    let e := e - 2;
    delta / 2 * (e * e * e + 2) + start

def easeInQuart : EasingFn := fun elapsed start delta duration =>
  let e := elapsed / duration;
  delta * e * e * e * e + start

def easeOutQuart : EasingFn := fun elapsed start delta duration =>
  let e := elapsed / duration - 1;
  -delta * (e * e * e * e - 1) + start

def easeInOutQuart : EasingFn := fun elapsed start delta duration =>
  let e := elapsed / (duration / 2);
  if e < 1 then delta / 2 * e * e * e * e + start
  else
    let e := e - 2;
    -delta / 2 * (e * e * e * e - 2) + start

def easeInQuint : EasingFn := fun elapsed start delta duration =>
  let e := elapsed / duration;
  delta * e * e * e * e * e + start

def easeOutQuint : EasingFn := fun elapsed start delta duration =>
  let e := elapsed / duration - 1;
  delta * (e * e * e * e * e + 1) + start

def easeInOutQuint : EasingFn := fun elapsed start delta duration =>
  let e := elapsed / (duration / 2);
  if e < 1 then delta / 2 * e * e * e * e * e + start
  else
    let e := e - 2;
    delta / 2 * (e * e * e * e * e + 2) + start

def easeInSine : EasingFn := fun elapsed start delta duration =>
  -delta * Real.cos (elapsed / duration * (Real.pi / 2)) + delta + start

def easeOutSine : EasingFn := fun elapsed start delta duration =>
  delta * Real.sin (elapsed / duration * (Real.pi / 2)) + start

def easeInOutSine : EasingFn := fun elapsed start delta duration =>
  -delta / 2 * (Real.cos (Real.pi * elapsed / duration) - 1) + start

def easeInExpo : EasingFn := fun elapsed start delta duration =>
  if elapsed = 0 then start
  else delta * Real.rpow 2 (10 * (elapsed / duration - 1)) + start

def easeOutExpo : EasingFn := fun elapsed start delta duration =>
  if elapsed = duration then start + delta
  else delta * (-Real.rpow 2 (-10 * elapsed / duration) + 1) + start

def easeInOutExpo : EasingFn := fun elapsed start delta duration =>
  if elapsed = 0 then start
  else if elapsed = duration then start + delta
  else
    let e := elapsed / (duration / 2);
    if e < 1 then delta / 2 * Real.rpow 2 (10 * (e - 1)) + start
    else
      let e := e - 1;
      delta / 2 * (-Real.rpow 2 (-10 * e) + 2) + start

def easeInCirc : EasingFn := fun elapsed start delta duration =>
  let e := elapsed / duration;
  -delta * (Real.sqrt (1 - e * e) - 1) + start

def easeOutCirc : EasingFn := fun elapsed start delta duration =>
  let e := elapsed / duration - 1;
  delta * Real.sqrt (1 - e * e) + start

def easeInOutCirc : EasingFn := fun elapsed start delta duration =>
  let e := elapsed / (duration / 2);
  if e < 1 then -delta / 2 * (Real.sqrt (1 - e * e) - 1) + start
  else
    let e := e - 2;
    delta / 2 * (Real.sqrt (1 - e * e) + 1) + start

def easeInElastic : EasingFn := fun elapsed start delta duration =>
  if elapsed = 0 then start
  else
    let e := elapsed / duration;
    if e = 1 then start + delta
    else
      let p := duration * 0.3;
      let a := delta;
      let s := if a < |delta| then p / 4 else p / (2 * Real.pi) * Real.arcsin (delta / a);
      let e := e - 1;
      -(a * Real.rpow 2 (10 * e) * Real.sin ((e * duration - s) * (2 * Real.pi) / p)) + start

def easeOutElastic : EasingFn := fun elapsed start delta duration =>
  if elapsed = 0 then start
  else
    let e := elapsed / duration;
    if e = 1 then start + delta
    else
      let p := duration * 0.3;
      let a := delta;
      let s := if a < |delta| then p / 4 else p / (2 * Real.pi) * Real.arcsin (delta / a);
      a * Real.rpow 2 (-10 * e) * Real.sin ((e * duration - s) * (2 * Real.pi) / p) + delta + start

def easeInOutElastic : EasingFn := fun elapsed start delta duration =>
  if elapsed = 0 then start
  else
    let e := elapsed / (duration / 2);
    if e = 2 then start + delta
    else
      let p := duration * (0.3 * 1.5);
      let a := delta;
      let s := if a < |delta| then p / 4 else p / (2 * Real.pi) * Real.arcsin (delta / a);
      if e < 1 then
        let e := e - 1;
        -0.5 * (a * Real.rpow 2 (10 * e) * Real.sin ((e * duration - s) * (2 * Real.pi) / p)) + start
      else
        let e := e - 1;
        a * Real.rpow 2 (-10 * e) * Real.sin ((e * duration - s) * (2 * Real.pi) / p) * 0.5 + delta + start

def easeInBack : EasingFn := fun elapsed start delta duration =>
  let s : ℝ := 1.70158;
  let e := elapsed / duration;
  delta * e * e * ((s + 1) * e - s) + start

def easeOutBack : EasingFn := fun elapsed start delta duration =>
  let s : ℝ := 1.70158;
  let e := elapsed / duration - 1;
  delta * (e * e * ((s + 1) * e + s) + 1) + start

def easeInOutBack : EasingFn := fun elapsed start delta duration =>
  let s : ℝ := 1.70158;
  let e := elapsed / (duration / 2);
  if e < 1 then
    let s := s * 1.525;
    delta / 2 * (e * e * ((s + 1) * e - s)) + start
  else
    let e := e - 2;
    let s := s * 1.525;
    delta / 2 * (e * e * ((s + 1) * e + s) + 2) + start

/-- The catalogue `easingFunctions`, a record in the source, modelled as
an association list in the source's insertion order. -/
def easingFunctions : List (String × EasingFn) :=
  [("easeInQuad", easeInQuad),
   ("easeOutQuad", easeOutQuad),
   ("easeInOutQuad", easeInOutQuad),
   ("easeInCubic", easeInCubic),
   ("easeOutCubic", easeOutCubic),
   ("easeInOutCubic", easeInOutCubic),
   ("easeInQuart", easeInQuart),
   ("easeOutQuart", easeOutQuart),
   ("easeInOutQuart", easeInOutQuart),
   ("easeInQuint", easeInQuint),
   ("easeOutQuint", easeOutQuint),
   ("easeInOutQuint", easeInOutQuint),
   ("easeInSine", easeInSine),
   ("easeOutSine", easeOutSine),
   ("easeInOutSine", easeInOutSine),
   ("easeInExpo", easeInExpo),
   ("easeOutExpo", easeOutExpo),
   ("easeInOutExpo", easeInOutExpo),
   ("easeInCirc", easeInCirc),
   ("easeOutCirc", easeOutCirc),
   ("easeInOutCirc", easeInOutCirc),
   ("easeInElastic", easeInElastic),
   ("easeOutElastic", easeOutElastic),
   ("easeInOutElastic", easeInOutElastic),
   ("easeInBack", easeInBack),
   ("easeOutBack", easeOutBack),
   ("easeInOutBack", easeInOutBack),
   ("easeInBounce", easeInBounce),
   ("easeOutBounce", easeOutBounce),
   ("easeInOutBounce", easeInOutBounce)]

/-! ## Graph geometry (src/main.ts) -/

/-- Model of createGraph: derives the two screen-space axes from the
canvas width and height. -/
def createGraph (width height : ℝ) : Graph :=
  let offsetXLeft := 0.05 * width;
  let offsetXRight := 0.02 * width;
  let offsetYTop := 0.05 * height;
  let offsetYBottom := 0.08 * height;
  let edgeX := width - offsetXRight;
  let minX := offsetXLeft;
  let maxX := edgeX - 20;
  let edgeY := offsetYTop;
  let minY := height - offsetYBottom;
  let maxY := edgeY + offsetYTop + 8;
  { x := { edge := edgeX, min := minX, max := maxX, delta := maxX - minX },
    y := { edge := edgeY, min := minY, max := maxY, delta := maxY - minY } }

/-- Model of normalizeCoordinate: pixel position to normalized Coordinate. -/
def normalizeCoordinate (graph : Graph) (absoluteX absoluteY : ℝ) : Coordinate :=
  { x := (absoluteX - graph.x.min) / graph.x.delta,
    y := (absoluteY - graph.y.min) / graph.y.delta }

/-- Model of absoluteCoordinate: normalized Coordinate to pixel position. -/
def absoluteCoordinate (graph : Graph) (coordinate : Coordinate) : Coordinate :=
  { x := graph.x.min + coordinate.x * graph.x.delta,
    y := graph.y.min + coordinate.y * graph.y.delta }

/-! ## Nearest-point resolution (closestCoordinate in src/main.ts) -/

/-- JavaScript Math.min over a spread list; the empty case (Infinity in
JavaScript) is `none`. -/
def jsMathMin : List ℝ → Option ℝ
  | [] => none
  | d :: ds =>
    match jsMathMin ds with
    | none => some d
    | some m => some (min d m)

/-- Array.prototype.findIndex with the predicate `(· = target)`; the
JavaScript -1 result is `none`. -/
def findIndexEq : List ℝ → ℝ → Option ℕ
  | [], _ => none
  | d :: ds, target => if d = target then some 0 else (findIndexEq ds target).map (· + 1)

/-- The Euclidean distance computed inside closestCoordinate. -/
def euclideanDistance (point pivot : Coordinate) : ℝ :=
  Real.sqrt ((point.x - pivot.x) ^ 2 + (point.y - pivot.y) ^ 2)

/-- Model of closestCoordinate: first accumulated point of minimal
Euclidean distance to the pivot, or null. -/
def closestCoordinate (coordinates : List Coordinate) (pivot : Option Coordinate) :
    Option Coordinate :=
  match pivot with
  | none => none
  | some pv =>
    let distances := coordinates.map (fun point => euclideanDistance point pv);
    match jsMathMin distances with
    | none => none
    | some minDistance =>
      match findIndexEq distances minDistance with
      | none => none
      | some resultIndex => coordinates.get? resultIndex

/-! ## The per-run streams (graph$ in src/main.ts)

Streams are modelled as the finite list of values they emit during one
run. The frame source animationFrames() is modelled by the list of
elapsed values it delivered; range(1, n) by List.range' 1 n. -/

/-- The Curve Generator lambda inside coordinate$: elapsed to normalized
Coordinate, with valueDelta = |to - from| as computed in graph$. -/
def liveCurvePoint (o : AnimationOptions) (elapsed : ℝ) : Coordinate :=
  { x := elapsed / o.duration,
    y := o.easingFunction elapsed o.fromValue |o.toValue - o.fromValue| o.duration / o.toValue }

/-- The sampling lambda inside optimalLines$: elapsed to normalized
Coordinate, with valueDelta = |to - from| as computed in graph$. -/
def optimalCurvePoint (o : AnimationOptions) (elapsed : ℝ) : Coordinate :=
  { x := elapsed / o.duration,
    y := o.easingFunction elapsed o.fromValue |o.toValue - o.fromValue| o.duration / o.toValue }

/-- Emissions of coordinate$ during a run in which animationFrames()
delivered the elapsed values `es`: map, startWith the synthetic start
point, takeWhile x < 1, endWith the terminal point. -/
def coordinateStream (o : AnimationOptions) (es : List ℝ) : List Coordinate :=
  (({ x := 0, y := o.fromValue } :: es.map (liveCurvePoint o)).takeWhile
    (fun c => decide (c.x < 1))) ++ [{ x := 1, y := 1 }]

/-- Emissions of an rxjs scan with the list-append accumulator: one
output per input, each the accumulator after folding that input. -/
def scanEmissions {α β : Type} (f : β → α → β) (acc : β) : List α → List β
  | [] => []
  | a :: as =>
    let acc' := f acc a;
    acc' :: scanEmissions f acc' as

/-- Emissions of pairwise: consecutive pairs of the input emissions. -/
def pairwiseEmissions {α : Type} (l : List α) : List (α × α) := l.zip l.tail

/-- The final value accumulated by coordinates$ (scan with list append)
once the point stream has emitted the list `ps` -- i.e. `ps` itself. -/
def accumulatedPoints (o : AnimationOptions) (es : List ℝ) : List Coordinate :=
  coordinateStream o es

/-- Emissions of normalizedLines$: pairwise over the live point stream,
mapped to Line, accumulated by scan with list append. -/
def normalizedLinesEmissions (ps : List Coordinate) : List (List Line) :=
  scanEmissions (fun acc line => acc ++ [line]) []
    ((pairwiseEmissions ps).map (fun pq => ({ lineFrom := pq.1, lineTo := pq.2 } : Line)))

/-- The point sequence underlying optimalLines$ for integer duration n:
range(1, n) sampled through the Curve Generator, startWith the synthetic
start point, takeWhile x < 1, endWith the terminal point. -/
def optimalPoints (o : AnimationOptions) (n : ℕ) : List Coordinate :=
  (({ x := 0, y := o.fromValue } ::
      (List.range' 1 n).map (fun elapsed : ℕ => optimalCurvePoint o (elapsed : ℝ))).takeWhile
    (fun c => decide (c.x < 1))) ++ [{ x := 1, y := 1 }]

/-- The single value emitted by optimalLines$ (pairwise then reduce to a
list): the consecutive-pair lines of the optimal point sequence. -/
def optimalLines (o : AnimationOptions) (n : ℕ) : List Line :=
  (pairwiseEmissions (optimalPoints o n)).map (fun pq => { lineFrom := pq.1, lineTo := pq.2 })

/-- Modelled from the spec: the point sequence the specification
describes for the Optimal Reference polyline -- the Curve Generator
sampled at every integer millisecond from 1 to duration inclusive,
prefixed with the synthetic (0, from) point and suffixed with (1,1),
with no further filtering. -/
def specOptimalPoints (o : AnimationOptions) (n : ℕ) : List Coordinate :=
  ({ x := 0, y := o.fromValue } ::
    (List.range' 1 n).map (fun elapsed : ℕ => optimalCurvePoint o (elapsed : ℝ))) ++ [{ x := 1, y := 1 }]

/-- Modelled from the spec: the pairwise-line list over specOptimalPoints. -/
def specOptimalLines (o : AnimationOptions) (n : ℕ) : List Line :=
  (pairwiseEmissions (specOptimalPoints o n)).map (fun pq => { lineFrom := pq.1, lineTo := pq.2 })

/-! ## Facts about the closestCoordinate helpers -/

theorem jsMathMin_eq_none_iff (l : List ℝ) : jsMathMin l = none ↔ l = [] := by
  cases l with
  | nil => simp [jsMathMin]
  | cons d ds =>
    rw [jsMathMin]
    cases jsMathMin ds <;> simp

theorem jsMathMin_spec (l : List ℝ) : ∀ m : ℝ, jsMathMin l = some m →
    m ∈ l ∧ ∀ x ∈ l, m ≤ x := by
  induction l with
  | nil => intro m h; simp [jsMathMin] at h
  | cons d ds ih =>
    intro m h
    rw [jsMathMin] at h
    cases hds : jsMathMin ds with
    | none =>
      rw [hds] at h
      simp only [Option.some.injEq] at h
      subst h
      have hnil : ds = [] := (jsMathMin_eq_none_iff ds).1 hds
      subst hnil
      simp
    | some m' =>
      rw [hds] at h
      simp only [Option.some.injEq] at h
      obtain ⟨hmem, hle⟩ := ih m' hds
      subst h
      constructor
      · rcases le_total d m' with hdm | hdm
        · rw [min_eq_left hdm]; exact List.mem_cons_self d ds
        · rw [min_eq_right hdm]; exact List.mem_cons_of_mem _ hmem
      · intro x hx
        rcases List.mem_cons.1 hx with rfl | hx'
        · exact min_le_left _ _
        · exact le_trans (min_le_right _ _) (hle x hx')

theorem findIndexEq_spec (l : List ℝ) (t : ℝ) : ∀ i : ℕ, findIndexEq l t = some i →
    ∃ hi : i < l.length, l.get ⟨i, hi⟩ = t ∧
      ∀ j (hj : j < l.length), j < i → l.get ⟨j, hj⟩ ≠ t := by
  induction l with
  | nil => intro i h; simp [findIndexEq] at h
  | cons d ds ih =>
    intro i h
    rw [findIndexEq] at h
    split at h
    · simp only [Option.some.injEq] at h
      subst h
      refine ⟨by simp, by simpa, ?_⟩
      intro j hj hji
      omega
    · rename_i hdt
      simp only [Option.map_eq_some'] at h
      obtain ⟨j, hj, rfl⟩ := h
      obtain ⟨hjlen, hget, hfirst⟩ := ih j hj
      refine ⟨by simpa using Nat.succ_lt_succ hjlen, by simpa using hget, ?_⟩
      intro k hk hki
      cases k with
      | zero => simpa using hdt
      | succ k' =>
        have hk1 : k' < ds.length := by simpa using hk
        have hk2 : k' < j := by omega
        simpa using hfirst k' hk1 hk2

theorem findIndexEq_of_mem (l : List ℝ) (t : ℝ) (h : t ∈ l) :
    ∃ i, findIndexEq l t = some i := by
  induction l with
  | nil => simp at h
  | cons d ds ih =>
    rw [findIndexEq]
    by_cases hdt : d = t
    · exact ⟨0, by simp [hdt]⟩
    · have ht : t ∈ ds := by
        rcases List.mem_cons.1 h with rfl | h'
        · exact absurd rfl hdt
        · exact h'
      obtain ⟨i, hi⟩ := ih ht
      exact ⟨i + 1, by simp [hdt, hi]⟩

theorem euclideanDistance_nonneg (p q : Coordinate) : 0 ≤ euclideanDistance p q :=
  Real.sqrt_nonneg _

theorem euclideanDistance_self (p : Coordinate) : euclideanDistance p p = 0 := by
  simp [euclideanDistance]

theorem euclideanDistance_eq_zero (c pv : Coordinate) (h : euclideanDistance c pv = 0) :
    c = pv := by
  unfold euclideanDistance at h
  rw [Real.sqrt_eq_zero (by positivity)] at h
  have hx : (c.x - pv.x) ^ 2 = 0 := by nlinarith [sq_nonneg (c.x - pv.x), sq_nonneg (c.y - pv.y)]
  have hy : (c.y - pv.y) ^ 2 = 0 := by nlinarith [sq_nonneg (c.x - pv.x), sq_nonneg (c.y - pv.y)]
  rw [Coordinate.ext_iff']
  constructor <;> nlinarith [hx, hy]

/-! ## Bootstrap (createBuffer, createScreen, init in src/main.ts) -/

/-- Model of a canvas buffer; the DOM canvas and 2d context are opaque to
the verification, only the dimensions are kept. -/
structure Buffer where
  width : ℝ
  height : ℝ

/-- The error message thrown by createBuffer. -/
def contextErrorMessage : String :=
  "Please check why canvas does not have a 2d render context"

/-- Model of createBuffer: canvas.getContext may return null, modelled by
the flag `hasContext`; a null context throws. -/
def createBuffer (width height : ℝ) (hasContext : Bool) : Except String Buffer :=
  if hasContext then Except.ok { width := width, height := height }
  else Except.error contextErrorMessage

/-- Model of the Screen record built by createScreen. -/
structure Screen where
  width : ℝ
  height : ℝ
  front : Buffer
  cache : Buffer
  graph : Graph

/-- Model of createScreen: two buffers plus the graph; a context failure
in either buffer propagates. -/
def createScreen (width height : ℝ) (hasContext : Bool) : Except String Screen := do
  let front ← createBuffer width height hasContext
  let cache ← createBuffer width height hasContext
  Except.ok { width := width, height := height, front := front, cache := cache,
              graph := createGraph width height }

/-- One graph instance set up by init's per-easing loop. -/
structure GraphInstance where
  name : String
  screen : Screen

/-- Model of the per-easing loop in init
(Object.entries(easingFunctions).map): each iteration creates a screen
with createScreen(300, 300); a thrown error aborts the whole map, so the
result is the list of instances completed before the failure together
with the error, if any. `hasContext i` tells whether graph i's canvases
can provide a 2d context. -/
def initGraphs (hasContext : ℕ → Bool) :
    List (String × EasingFn) → ℕ → List GraphInstance →
    List GraphInstance × Option String
  | [], _, acc => (acc, none)
  | (name, _) :: rest, i, acc =>
    match createScreen 300 300 (hasContext i) with
    | Except.error e => (acc, some e)
    | Except.ok screen => initGraphs hasContext rest (i + 1) (acc ++ [{ name := name, screen := screen }])

/-- The AnimationOptions init builds for every graph instance. -/
def initAnimationOptions (duration : ℝ) (f : EasingFn) : AnimationOptions :=
  { fromValue := 0, toValue := 100, duration := duration, easingFunction := f }

/-! ## Endpoint evaluations of every easing in the catalogue

For the run parameters used by init (start = from = 0, delta = 100),
each easing returns 0 at elapsed = 0 and 100 at elapsed = duration. -/

theorem div_half_self (d : ℝ) (hd : d ≠ 0) : d / (d / 2) = 2 := by
  rw [div_div_eq_mul_div, mul_comm, mul_div_assoc, div_self hd, mul_one]

theorem easeInQuad_zero (d : ℝ) (_ : 0 < d) : easeInQuad 0 0 100 d = 0 := by
  simp [easeInQuad]

theorem easeInQuad_end (d : ℝ) (hd : 0 < d) : easeInQuad d 0 100 d = 100 := by
  simp [easeInQuad, div_self hd.ne']

theorem easeOutQuad_zero (d : ℝ) (_ : 0 < d) : easeOutQuad 0 0 100 d = 0 := by
  simp [easeOutQuad]

theorem easeOutQuad_end (d : ℝ) (hd : 0 < d) : easeOutQuad d 0 100 d = 100 := by
  norm_num [easeOutQuad, div_self hd.ne']

theorem easeInOutQuad_zero (d : ℝ) (_ : 0 < d) : easeInOutQuad 0 0 100 d = 0 := by
  norm_num [easeInOutQuad]

theorem easeInOutQuad_end (d : ℝ) (hd : 0 < d) : easeInOutQuad d 0 100 d = 100 := by
  norm_num [easeInOutQuad, div_half_self d hd.ne']

theorem easeInCubic_zero (d : ℝ) (_ : 0 < d) : easeInCubic 0 0 100 d = 0 := by
  simp [easeInCubic]

theorem easeInCubic_end (d : ℝ) (hd : 0 < d) : easeInCubic d 0 100 d = 100 := by
  simp [easeInCubic, div_self hd.ne']

theorem easeOutCubic_zero (d : ℝ) (_ : 0 < d) : easeOutCubic 0 0 100 d = 0 := by
  norm_num [easeOutCubic]

theorem easeOutCubic_end (d : ℝ) (hd : 0 < d) : easeOutCubic d 0 100 d = 100 := by
  norm_num [easeOutCubic, div_self hd.ne']

theorem easeInOutCubic_zero (d : ℝ) (_ : 0 < d) : easeInOutCubic 0 0 100 d = 0 := by
  norm_num [easeInOutCubic]

theorem easeInOutCubic_end (d : ℝ) (hd : 0 < d) : easeInOutCubic d 0 100 d = 100 := by
  norm_num [easeInOutCubic, div_half_self d hd.ne']

theorem easeInQuart_zero (d : ℝ) (_ : 0 < d) : easeInQuart 0 0 100 d = 0 := by
  simp [easeInQuart]

theorem easeInQuart_end (d : ℝ) (hd : 0 < d) : easeInQuart d 0 100 d = 100 := by
  simp [easeInQuart, div_self hd.ne']

theorem easeOutQuart_zero (d : ℝ) (_ : 0 < d) : easeOutQuart 0 0 100 d = 0 := by
  norm_num [easeOutQuart]

theorem easeOutQuart_end (d : ℝ) (hd : 0 < d) : easeOutQuart d 0 100 d = 100 := by
  norm_num [easeOutQuart, div_self hd.ne']

theorem easeInOutQuart_zero (d : ℝ) (_ : 0 < d) : easeInOutQuart 0 0 100 d = 0 := by
  norm_num [easeInOutQuart]

theorem easeInOutQuart_end (d : ℝ) (hd : 0 < d) : easeInOutQuart d 0 100 d = 100 := by
  norm_num [easeInOutQuart, div_half_self d hd.ne']

theorem easeInQuint_zero (d : ℝ) (_ : 0 < d) : easeInQuint 0 0 100 d = 0 := by
  simp [easeInQuint]

theorem easeInQuint_end (d : ℝ) (hd : 0 < d) : easeInQuint d 0 100 d = 100 := by
  simp [easeInQuint, div_self hd.ne']

theorem easeOutQuint_zero (d : ℝ) (_ : 0 < d) : easeOutQuint 0 0 100 d = 0 := by
  norm_num [easeOutQuint]

theorem easeOutQuint_end (d : ℝ) (hd : 0 < d) : easeOutQuint d 0 100 d = 100 := by
  norm_num [easeOutQuint, div_self hd.ne']

theorem easeInOutQuint_zero (d : ℝ) (_ : 0 < d) : easeInOutQuint 0 0 100 d = 0 := by
  norm_num [easeInOutQuint]

theorem easeInOutQuint_end (d : ℝ) (hd : 0 < d) : easeInOutQuint d 0 100 d = 100 := by
  norm_num [easeInOutQuint, div_half_self d hd.ne']

theorem easeInBack_zero (d : ℝ) (_ : 0 < d) : easeInBack 0 0 100 d = 0 := by
  simp [easeInBack]

theorem easeInBack_end (d : ℝ) (hd : 0 < d) : easeInBack d 0 100 d = 100 := by
  norm_num [easeInBack, div_self hd.ne']

theorem easeOutBack_zero (d : ℝ) (_ : 0 < d) : easeOutBack 0 0 100 d = 0 := by
  norm_num [easeOutBack]

theorem easeOutBack_end (d : ℝ) (hd : 0 < d) : easeOutBack d 0 100 d = 100 := by
  norm_num [easeOutBack, div_self hd.ne']

theorem easeInOutBack_zero (d : ℝ) (_ : 0 < d) : easeInOutBack 0 0 100 d = 0 := by
  norm_num [easeInOutBack]

theorem easeInOutBack_end (d : ℝ) (hd : 0 < d) : easeInOutBack d 0 100 d = 100 := by
  norm_num [easeInOutBack, div_half_self d hd.ne']

theorem easeOutBounce_zero (d : ℝ) (_ : 0 < d) : easeOutBounce 0 0 100 d = 0 := by
  norm_num [easeOutBounce]

theorem easeOutBounce_end (d : ℝ) (hd : 0 < d) : easeOutBounce d 0 100 d = 100 := by
  norm_num [easeOutBounce, div_self hd.ne']

theorem easeInBounce_zero (d : ℝ) (hd : 0 < d) : easeInBounce 0 0 100 d = 0 := by
  simp only [easeInBounce, sub_zero]
  rw [easeOutBounce_end d hd]
  ring

theorem easeInBounce_end (d : ℝ) (hd : 0 < d) : easeInBounce d 0 100 d = 100 := by
  simp only [easeInBounce, sub_self]
  rw [easeOutBounce_zero d hd]
  ring

theorem easeInOutBounce_zero (d : ℝ) (hd : 0 < d) : easeInOutBounce 0 0 100 d = 0 := by
  simp only [easeInOutBounce, zero_mul]
  rw [if_pos (by positivity), easeInBounce_zero d hd]
  ring

theorem easeInOutBounce_end (d : ℝ) (hd : 0 < d) : easeInOutBounce d 0 100 d = 100 := by
  have h2 : d * 2 - d = d := by ring
  simp only [easeInOutBounce, h2]
  rw [if_neg (by linarith), easeOutBounce_end d hd]
  ring

theorem easeInSine_zero (d : ℝ) (_ : 0 < d) : easeInSine 0 0 100 d = 0 := by
  simp [easeInSine]

theorem easeInSine_end (d : ℝ) (hd : 0 < d) : easeInSine d 0 100 d = 100 := by
  norm_num [easeInSine, div_self hd.ne', Real.cos_pi_div_two]

theorem easeOutSine_zero (d : ℝ) (_ : 0 < d) : easeOutSine 0 0 100 d = 0 := by
  simp [easeOutSine]

theorem easeOutSine_end (d : ℝ) (hd : 0 < d) : easeOutSine d 0 100 d = 100 := by
  norm_num [easeOutSine, div_self hd.ne', Real.sin_pi_div_two]

theorem easeInOutSine_zero (d : ℝ) (_ : 0 < d) : easeInOutSine 0 0 100 d = 0 := by
  simp [easeInOutSine]

theorem easeInOutSine_end (d : ℝ) (hd : 0 < d) : easeInOutSine d 0 100 d = 100 := by
  have hpi : Real.pi * d / d = Real.pi := by
    rw [mul_div_assoc, div_self hd.ne', mul_one]
  norm_num [easeInOutSine, hpi, Real.cos_pi]

theorem easeInExpo_zero (d : ℝ) (_ : 0 < d) : easeInExpo 0 0 100 d = 0 := by
  simp [easeInExpo]

theorem easeInExpo_end (d : ℝ) (hd : 0 < d) : easeInExpo d 0 100 d = 100 := by
  norm_num [easeInExpo, hd.ne', div_self hd.ne', Real.rpow_zero]

theorem easeOutExpo_zero (d : ℝ) (hd : 0 < d) : easeOutExpo 0 0 100 d = 0 := by
  norm_num [easeOutExpo, hd.ne, Real.rpow_zero]

theorem easeOutExpo_end (d : ℝ) (_ : 0 < d) : easeOutExpo d 0 100 d = 100 := by
  simp [easeOutExpo]

theorem easeInOutExpo_zero (d : ℝ) (_ : 0 < d) : easeInOutExpo 0 0 100 d = 0 := by
  simp [easeInOutExpo]

theorem easeInOutExpo_end (d : ℝ) (hd : 0 < d) : easeInOutExpo d 0 100 d = 100 := by
  norm_num [easeInOutExpo, hd.ne']

theorem easeInCirc_zero (d : ℝ) (_ : 0 < d) : easeInCirc 0 0 100 d = 0 := by
  simp [easeInCirc]

theorem easeInCirc_end (d : ℝ) (hd : 0 < d) : easeInCirc d 0 100 d = 100 := by
  norm_num [easeInCirc, div_self hd.ne']

theorem easeOutCirc_zero (d : ℝ) (_ : 0 < d) : easeOutCirc 0 0 100 d = 0 := by
  norm_num [easeOutCirc]

theorem easeOutCirc_end (d : ℝ) (hd : 0 < d) : easeOutCirc d 0 100 d = 100 := by
  norm_num [easeOutCirc, div_self hd.ne']

theorem easeInOutCirc_zero (d : ℝ) (_ : 0 < d) : easeInOutCirc 0 0 100 d = 0 := by
  norm_num [easeInOutCirc]

theorem easeInOutCirc_end (d : ℝ) (hd : 0 < d) : easeInOutCirc d 0 100 d = 100 := by
  norm_num [easeInOutCirc, div_half_self d hd.ne']

theorem easeInElastic_zero (d : ℝ) (_ : 0 < d) : easeInElastic 0 0 100 d = 0 := by
  simp [easeInElastic]

theorem easeInElastic_end (d : ℝ) (hd : 0 < d) : easeInElastic d 0 100 d = 100 := by
  norm_num [easeInElastic, hd.ne', div_self hd.ne']

theorem easeOutElastic_zero (d : ℝ) (_ : 0 < d) : easeOutElastic 0 0 100 d = 0 := by
  simp [easeOutElastic]

theorem easeOutElastic_end (d : ℝ) (hd : 0 < d) : easeOutElastic d 0 100 d = 100 := by
  norm_num [easeOutElastic, hd.ne', div_self hd.ne']

theorem easeInOutElastic_zero (d : ℝ) (_ : 0 < d) : easeInOutElastic 0 0 100 d = 0 := by
  simp [easeInOutElastic]

theorem easeInOutElastic_end (d : ℝ) (hd : 0 < d) : easeInOutElastic d 0 100 d = 100 := by
  norm_num [easeInOutElastic, hd.ne', div_half_self d hd.ne']

/-! ## Claim C1 -/

theorem liveCurvePoint_endpoints (f : EasingFn) (d : ℝ) (hd : 0 < d)
    (h0 : f 0 0 100 d = 0) (h1 : f d 0 100 d = 100) :
    liveCurvePoint (initAnimationOptions d f) 0 = ⟨0, 0⟩ ∧
    liveCurvePoint (initAnimationOptions d f) d = ⟨1, 1⟩ := by
  have habs : |(100 : ℝ) - 0| = 100 := by norm_num
  constructor <;>
    simp [liveCurvePoint, initAnimationOptions, Coordinate.ext_iff', habs, h0, h1,
      div_self hd.ne']

/-- C1: for every easing function in the catalogue and every duration
d > 0, the Curve Generator (with the run parameters from = 0, to = 100)
yields the normalized start point (0, from/to) = (0, 0/100) at
elapsed = 0 and exactly (1, 1) at elapsed = d. -/
theorem C1_curve_generator_endpoints :
    ∀ entry ∈ easingFunctions, ∀ d : ℝ, 0 < d →
      liveCurvePoint (initAnimationOptions d entry.2) 0 = ⟨0, 0 / 100⟩ ∧
      liveCurvePoint (initAnimationOptions d entry.2) d = ⟨1, 1⟩ := by
  simp only [zero_div]
  intro entry hentry d hd
  simp only [easingFunctions] at hentry
  fin_cases hentry
  · exact liveCurvePoint_endpoints _ d hd (easeInQuad_zero d hd) (easeInQuad_end d hd)
  · exact liveCurvePoint_endpoints _ d hd (easeOutQuad_zero d hd) (easeOutQuad_end d hd)
  · exact liveCurvePoint_endpoints _ d hd (easeInOutQuad_zero d hd) (easeInOutQuad_end d hd)
  · exact liveCurvePoint_endpoints _ d hd (easeInCubic_zero d hd) (easeInCubic_end d hd)
  · exact liveCurvePoint_endpoints _ d hd (easeOutCubic_zero d hd) (easeOutCubic_end d hd)
  · exact liveCurvePoint_endpoints _ d hd (easeInOutCubic_zero d hd) (easeInOutCubic_end d hd)
  · exact liveCurvePoint_endpoints _ d hd (easeInQuart_zero d hd) (easeInQuart_end d hd)
  · exact liveCurvePoint_endpoints _ d hd (easeOutQuart_zero d hd) (easeOutQuart_end d hd)
  · exact liveCurvePoint_endpoints _ d hd (easeInOutQuart_zero d hd) (easeInOutQuart_end d hd)
  · exact liveCurvePoint_endpoints _ d hd (easeInQuint_zero d hd) (easeInQuint_end d hd)
  · exact liveCurvePoint_endpoints _ d hd (easeOutQuint_zero d hd) (easeOutQuint_end d hd)
  · exact liveCurvePoint_endpoints _ d hd (easeInOutQuint_zero d hd) (easeInOutQuint_end d hd)
  · exact liveCurvePoint_endpoints _ d hd (easeInSine_zero d hd) (easeInSine_end d hd)
  · exact liveCurvePoint_endpoints _ d hd (easeOutSine_zero d hd) (easeOutSine_end d hd)
  · exact liveCurvePoint_endpoints _ d hd (easeInOutSine_zero d hd) (easeInOutSine_end d hd)
  · exact liveCurvePoint_endpoints _ d hd (easeInExpo_zero d hd) (easeInExpo_end d hd)
  · exact liveCurvePoint_endpoints _ d hd (easeOutExpo_zero d hd) (easeOutExpo_end d hd)
  · exact liveCurvePoint_endpoints _ d hd (easeInOutExpo_zero d hd) (easeInOutExpo_end d hd)
  · exact liveCurvePoint_endpoints _ d hd (easeInCirc_zero d hd) (easeInCirc_end d hd)
  · exact liveCurvePoint_endpoints _ d hd (easeOutCirc_zero d hd) (easeOutCirc_end d hd)
  · exact liveCurvePoint_endpoints _ d hd (easeInOutCirc_zero d hd) (easeInOutCirc_end d hd)
  · exact liveCurvePoint_endpoints _ d hd (easeInElastic_zero d hd) (easeInElastic_end d hd)
  · exact liveCurvePoint_endpoints _ d hd (easeOutElastic_zero d hd) (easeOutElastic_end d hd)
  · exact liveCurvePoint_endpoints _ d hd (easeInOutElastic_zero d hd) (easeInOutElastic_end d hd)
  · exact liveCurvePoint_endpoints _ d hd (easeInBack_zero d hd) (easeInBack_end d hd)
  · exact liveCurvePoint_endpoints _ d hd (easeOutBack_zero d hd) (easeOutBack_end d hd)
  · exact liveCurvePoint_endpoints _ d hd (easeInOutBack_zero d hd) (easeInOutBack_end d hd)
  · exact liveCurvePoint_endpoints _ d hd (easeInBounce_zero d hd) (easeInBounce_end d hd)
  · exact liveCurvePoint_endpoints _ d hd (easeOutBounce_zero d hd) (easeOutBounce_end d hd)
  · exact liveCurvePoint_endpoints _ d hd (easeInOutBounce_zero d hd) (easeInOutBounce_end d hd)

/-- C1 witness: the theorem applied to the first catalogue entry at
duration 1. -/
theorem C1_curve_generator_endpoints_witness :
    liveCurvePoint (initAnimationOptions 1 easeInQuad) 0 = ⟨0, 0 / 100⟩ ∧
    liveCurvePoint (initAnimationOptions 1 easeInQuad) 1 = ⟨1, 1⟩ :=
  C1_curve_generator_endpoints ("easeInQuad", easeInQuad) (by simp [easingFunctions]) 1
    one_pos

/-! ## Claim C3 -/

/-- C3: for every Graph with nonzero axis deltas, normalizeCoordinate and
absoluteCoordinate are exact inverses: normalize after absolute is the
identity on Coordinates, and absolute after normalize is the identity on
pixel positions. -/
theorem C3_normalize_absolute_roundtrip (g : Graph)
    (hx : g.x.delta ≠ 0) (hy : g.y.delta ≠ 0) :
    (∀ c : Coordinate,
      normalizeCoordinate g (absoluteCoordinate g c).x (absoluteCoordinate g c).y = c) ∧
    (∀ px py : ℝ, absoluteCoordinate g (normalizeCoordinate g px py) = ⟨px, py⟩) := by
  constructor
  · intro c
    simp only [normalizeCoordinate, absoluteCoordinate, Coordinate.ext_iff']
    constructor <;> field_simp
  · intro px py
    simp only [normalizeCoordinate, absoluteCoordinate, Coordinate.ext_iff']
    constructor <;> field_simp

/-- C3 witness: the round trip evaluated on the graph init builds, a
concrete Coordinate and a concrete pixel position. -/
theorem C3_normalize_absolute_roundtrip_witness :
    (normalizeCoordinate (createGraph 300 300)
        (absoluteCoordinate (createGraph 300 300) ⟨1 / 4, 1 / 2⟩).x
        (absoluteCoordinate (createGraph 300 300) ⟨1 / 4, 1 / 2⟩).y = ⟨1 / 4, 1 / 2⟩) ∧
    absoluteCoordinate (createGraph 300 300) (normalizeCoordinate (createGraph 300 300) 30 40) =
      ⟨30, 40⟩ :=
  ⟨(C3_normalize_absolute_roundtrip (createGraph 300 300) (by norm_num [createGraph])
      (by norm_num [createGraph])).1 ⟨1 / 4, 1 / 2⟩,
   (C3_normalize_absolute_roundtrip (createGraph 300 300) (by norm_num [createGraph])
      (by norm_num [createGraph])).2 30 40⟩

/-! ## Claim C10 -/

/-- C10: for the 300 by 300 screens init creates, the x axis has positive
delta, the y axis has negative delta (its max pixel lies above its min
pixel), and absoluteCoordinate maps a strictly larger normalized y to a
strictly smaller pixel y: the value axis renders upward. -/
theorem C10_value_axis_renders_upward :
    0 < (createGraph 300 300).x.delta ∧ (createGraph 300 300).y.delta < 0 ∧
    ∀ c1 c2 : Coordinate, c1.y < c2.y →
      (absoluteCoordinate (createGraph 300 300) c2).y <
        (absoluteCoordinate (createGraph 300 300) c1).y := by
  refine ⟨by norm_num [createGraph], by norm_num [createGraph], ?_⟩
  intro c1 c2 h
  simp only [absoluteCoordinate, createGraph]
  norm_num
  linarith

/-- C10 witness: the orientation statement evaluated at two concrete
coordinates. -/
theorem C10_value_axis_renders_upward_witness :
    (absoluteCoordinate (createGraph 300 300) ⟨0, 1⟩).y <
      (absoluteCoordinate (createGraph 300 300) ⟨0, 0⟩).y :=
  C10_value_axis_renders_upward.2.2 ⟨0, 0⟩ ⟨0, 1⟩ (by norm_num)

/-! ## Claim C8 -/

/-- C8: the elapsed-to-Coordinate function of the live frame-driven
stream and the one used by the Optimal Reference Curve's per-millisecond
sampling are the same function: for every AnimationOptions and every
elapsed value they produce equal Coordinates. -/
theorem C8_live_and_optimal_sampler_agree (o : AnimationOptions) (elapsed : ℝ) :
    liveCurvePoint o elapsed = optimalCurvePoint o elapsed := rfl

/-! ## Claim C9 -/

/-- C9: the synthetic first point of both the live point stream and the
Optimal Reference point sequence is the raw {x: 0, y: from}, not the
normalized {x: 0, y: from/to}; it coincides with (0, 0) for every run
built by init only because init always uses from = 0 (and to = 100). -/
theorem C9_start_point_is_raw_from :
    (∀ (o : AnimationOptions) (es : List ℝ),
      (coordinateStream o es).head? = some ⟨0, o.fromValue⟩) ∧
    (∀ (o : AnimationOptions) (n : ℕ),
      (optimalPoints o n).head? = some ⟨0, o.fromValue⟩) ∧
    (∀ (d : ℝ) (f : EasingFn),
      (initAnimationOptions d f).fromValue = 0 ∧ (initAnimationOptions d f).toValue = 100 ∧
      (⟨0, (initAnimationOptions d f).fromValue⟩ : Coordinate) = ⟨0, 0⟩) ∧
    ¬ (∀ o : AnimationOptions, (⟨0, o.fromValue⟩ : Coordinate) = ⟨0, o.fromValue / o.toValue⟩) := by
  refine ⟨?_, ?_, ?_, ?_⟩
  · intro o es
    unfold coordinateStream
    rw [List.takeWhile_cons_of_pos (by simp)]
    rfl
  · intro o n
    unfold optimalPoints
    rw [List.takeWhile_cons_of_pos (by simp)]
    rfl
  · intro d f
    exact ⟨rfl, rfl, rfl⟩
  · intro h
    have := h { fromValue := 50, toValue := 100, duration := 1, easingFunction := easeInQuad }
    simp only [Coordinate.ext_iff'] at this
    norm_num at this

/-! ## Claim C2 -/

/-- C2: for every run (duration > 0, frames delivering non-negative,
non-decreasing elapsed values), the accumulated point list built from the
emissions of coordinate$ has non-decreasing x values and its final
element is exactly (1, 1). -/
theorem C2_accumulated_points_monotone_and_terminal (o : AnimationOptions) (es : List ℝ)
    (hd : 0 < o.duration) (hnn : ∀ e ∈ es, 0 ≤ e) (hmono : es.Chain' (· ≤ ·)) :
    (accumulatedPoints o es).Chain' (fun p q => p.x ≤ q.x) ∧
    (accumulatedPoints o es).getLast? = some ⟨1, 1⟩ := by
  haveI : IsTrans Coordinate (fun p q : Coordinate => p.x ≤ q.x) :=
    ⟨fun _ _ _ h1 h2 => le_trans h1 h2⟩
  have hbase : List.Chain' (fun p q : Coordinate => p.x ≤ q.x)
      ((⟨0, o.fromValue⟩ : Coordinate) :: es.map (liveCurvePoint o)) := by
    rw [List.chain'_cons']
    constructor
    · intro y hy
      rw [List.head?_map] at hy
      cases hes : es.head? with
      | none => rw [hes] at hy; simp at hy
      | some e =>
        rw [hes] at hy
        simp only [Option.map_some', Option.mem_def, Option.some.injEq] at hy
        subst hy
        show (0 : ℝ) ≤ e / o.duration
        exact div_nonneg (hnn e (List.mem_of_mem_head? (by rw [hes]; rfl))) hd.le
    · rw [List.chain'_map]
      exact hmono.imp fun a b hab => (div_le_div_iff_of_pos_right hd).mpr hab
  have htw : List.Chain' (fun p q : Coordinate => p.x ≤ q.x)
      (((⟨0, o.fromValue⟩ : Coordinate) :: es.map (liveCurvePoint o)).takeWhile
        (fun c => decide (c.x < 1))) :=
    hbase.sublist (List.takeWhile_sublist _)
  constructor
  · show List.Chain' _ (_ ++ [(⟨1, 1⟩ : Coordinate)])
    rw [List.chain'_append]
    refine ⟨htw, List.chain'_singleton _, ?_⟩
    intro x hx y hy
    simp only [List.head?_cons, Option.mem_def, Option.some.injEq] at hy
    subst hy
    have hxmem := List.mem_of_mem_getLast? hx
    have hpx := List.mem_takeWhile_imp hxmem
    simp only [decide_eq_true_eq] at hpx
    exact le_of_lt hpx
  · show (_ ++ [(⟨1, 1⟩ : Coordinate)]).getLast? = _
    rw [List.getLast?_append_cons]
    rfl

/-- C2 witness: a run with duration 2 and frames at elapsed 0 and 1. -/
theorem C2_accumulated_points_monotone_and_terminal_witness :
    (accumulatedPoints (initAnimationOptions 2 easeInQuad) [0, 1]).Chain'
      (fun p q => p.x ≤ q.x) ∧
    (accumulatedPoints (initAnimationOptions 2 easeInQuad) [0, 1]).getLast? = some ⟨1, 1⟩ :=
  C2_accumulated_points_monotone_and_terminal (initAnimationOptions 2 easeInQuad) [0, 1]
    (by norm_num [initAnimationOptions]) (by norm_num)
    (by constructor <;> norm_num)

/-! ## Claim C7 -/

/-- The consecutive-pair line list of a point list, as pairwise plus map
build it. -/
def pairSegments (ps : List Coordinate) : List Line :=
  (pairwiseEmissions ps).map fun pq => { lineFrom := pq.1, lineTo := pq.2 }

theorem scanEmissions_append_eq {α : Type} (l : List α) :
    ∀ acc : List α, scanEmissions (fun acc a => acc ++ [a]) acc l =
      (List.range l.length).map fun k => acc ++ l.take (k + 1) := by
  induction l with
  | nil => intro acc; rfl
  | cons a as ih =>
    intro acc
    rw [scanEmissions, ih (acc ++ [a]), List.length_cons, List.range_succ_eq_map,
      List.map_cons, List.map_map]
    congr 1
    apply List.map_congr_left
    intro k _
    simp [List.take_succ_cons]

theorem normalizedLinesEmissions_eq (ps : List Coordinate) :
    normalizedLinesEmissions ps =
      (List.range (pairSegments ps).length).map fun k => (pairSegments ps).take (k + 1) := by
  unfold normalizedLinesEmissions pairSegments
  rw [scanEmissions_append_eq]
  simp

/-- C7: the emissions of the Incremental Line Builder over a finite point
prefix are exactly the successive prefixes of the consecutive-pair line
list (the list only grows by appending); each segment i joins points i
and i + 1 of the observed prefix, so both endpoints are observed before
the segment; and once the whole prefix p0..pn is observed the
accumulated list is exactly the full consecutive-pair list. -/
theorem C7_incremental_line_builder (ps : List Coordinate) :
    (normalizedLinesEmissions ps =
      (List.range (pairSegments ps).length).map fun k => (pairSegments ps).take (k + 1)) ∧
    (∀ i (hi0 : i < ps.length) (hi1 : i + 1 < ps.length) (hi : i < (pairSegments ps).length),
      (pairSegments ps).get ⟨i, hi⟩ =
        { lineFrom := ps.get ⟨i, hi0⟩, lineTo := ps.get ⟨i + 1, hi1⟩ }) ∧
    (2 ≤ ps.length → (normalizedLinesEmissions ps).getLast? = some (pairSegments ps)) := by
  refine ⟨normalizedLinesEmissions_eq ps, ?_, ?_⟩
  · intro i hi0 hi1 hi
    simp [pairSegments, pairwiseEmissions, List.getElem_zip, List.getElem_tail]
  · intro h2
    have hlen : (pairSegments ps).length = ps.length - 1 := by
      simp only [pairSegments, pairwiseEmissions, List.length_map, List.length_zip,
        List.length_tail]
      omega
    obtain ⟨m, hm⟩ : ∃ m, (pairSegments ps).length = m + 1 := ⟨ps.length - 2, by omega⟩
    rw [normalizedLinesEmissions_eq ps, hm, List.range_succ, List.map_append, List.map_cons,
      List.map_nil, List.getLast?_append_cons]
    have : (pairSegments ps).take (m + 1) = pairSegments ps := by
      rw [← hm]; simp
    rw [this]
    rfl

/-! ## Claim C6 -/

instance : Inhabited Coordinate := ⟨⟨0, 0⟩⟩

theorem pairSegments_head (a b : Coordinate) (l : List Coordinate) :
    (pairSegments (a :: b :: l)).head? = some { lineFrom := a, lineTo := b } := rfl

theorem pairSegments_last_lineTo (x : Coordinate) :
    ∀ l : List Coordinate, l ≠ [] →
      ((pairSegments (l ++ [x])).getLast?).map (fun seg => seg.lineTo) = some x
  | [], h => absurd rfl h
  | [a], _ => rfl
  | a :: b :: t, _ => by
    have ih := pairSegments_last_lineTo x (b :: t) (by simp)
    have hexp : pairSegments ((a :: b :: t) ++ [x]) =
        ({ lineFrom := a, lineTo := b } : Line) :: pairSegments ((b :: t) ++ [x]) := rfl
    have hexp2 : pairSegments ((b :: t) ++ [x]) =
        ({ lineFrom := b, lineTo := (t ++ [x]).headI } : Line) :: pairSegments (t ++ [x]) := by
      cases t <;> rfl
    rw [hexp, hexp2, List.getLast?_cons_cons, ← hexp2]
    exact ih

/-- The point sequence of optimalLines$ for an integer duration n at
least 1: the takeWhile keeps the start point and the samples 1..n-1
(whose x is below 1) and drops exactly the sample at elapsed = n, whose
x equals 1. -/
theorem optimalPoints_eq (o : AnimationOptions) (n : ℕ) (hn : 1 ≤ n)
    (hdur : o.duration = (n : ℝ)) :
    optimalPoints o n =
      ((⟨0, o.fromValue⟩ : Coordinate) ::
        (List.range' 1 (n - 1)).map fun k : ℕ => optimalCurvePoint o (k : ℝ)) ++ [⟨1, 1⟩] := by
  have hnR : (0 : ℝ) < (n : ℝ) := by exact_mod_cast hn
  unfold optimalPoints
  rw [List.cons_append]
  rw [List.takeWhile_cons_of_pos (by simp)]
  have hsplit : List.range' 1 n = List.range' 1 (n - 1) ++ [n] := by
    have hc := @List.range'_concat 1 1 (n - 1)
    have h1 : n - 1 + 1 = n := by omega
    have h2 : 1 + 1 * (n - 1) = n := by omega
    rw [h1, h2] at hc
    exact hc
  rw [hsplit, List.map_append, List.takeWhile_append_of_pos, List.map_cons, List.map_nil,
    List.takeWhile_cons_of_neg]
  · simp
  · simp only [decide_eq_true_eq, not_lt]
    show (1 : ℝ) ≤ (n : ℝ) / o.duration
    rw [hdur, div_self hnR.ne']
  · intro c hc
    obtain ⟨k, hk, rfl⟩ := List.mem_map.1 hc
    obtain ⟨hk1, hk2⟩ := List.mem_range'_1.1 hk
    simp only [decide_eq_true_eq]
    show (k : ℝ) / o.duration < 1
    rw [hdur, div_lt_one hnR]
    exact_mod_cast (by omega : k < n)

/-- C6 counterexample: at easing easeInQuad, from = 0, to = 100,
duration = 2, the line list the code computes differs from the
pairwise-line list over the spec's point sequence (which samples up to
elapsed = duration inclusive): the code's takeWhile drops the
elapsed = duration sample, so the spec's list has one extra segment. -/
theorem C6_inclusive_sampling_counterexample :
    optimalLines (initAnimationOptions 2 easeInQuad) 2 ≠
      specOptimalLines (initAnimationOptions 2 easeInQuad) 2 := by
  have hpts := optimalPoints_eq (initAnimationOptions 2 easeInQuad) 2 (by norm_num)
    (by norm_num [initAnimationOptions])
  intro h
  have hlen := congrArg List.length h
  rw [show optimalLines (initAnimationOptions 2 easeInQuad) 2 =
      pairSegments (optimalPoints (initAnimationOptions 2 easeInQuad) 2) from rfl, hpts] at hlen
  simp [specOptimalLines, specOptimalPoints, pairSegments, pairwiseEmissions,
    List.range'] at hlen

/-- C6 amended: for every run with integer duration n at least 1, the
Optimal Reference polyline is the pairwise-line list over the point
sequence consisting of the synthetic start point (0, from), the Curve
Generator sampled at every integer millisecond from 1 to duration - 1
(the elapsed = duration sample has x = 1 and is dropped by the stream's
takeWhile x < 1), suffixed with the terminal point (1, 1); for
easeOutBounce with from = 0, to = 100, duration = 1000 the polyline's
first point is (0, 0) and its last point is exactly (1, 1). -/
theorem C6_optimal_reference_polyline (o : AnimationOptions) (n : ℕ) (hn : 1 ≤ n)
    (hdur : o.duration = (n : ℝ)) :
    (optimalLines o n = pairSegments
      (((⟨0, o.fromValue⟩ : Coordinate) ::
        (List.range' 1 (n - 1)).map fun k : ℕ => optimalCurvePoint o (k : ℝ)) ++ [⟨1, 1⟩])) ∧
    ((optimalLines (initAnimationOptions 1000 easeOutBounce) 1000).head?).map
      (fun seg => seg.lineFrom) = some ⟨0, 0⟩ ∧
    ((optimalLines (initAnimationOptions 1000 easeOutBounce) 1000).getLast?).map
      (fun seg => seg.lineTo) = some ⟨1, 1⟩ := by
  have hb := optimalPoints_eq (initAnimationOptions 1000 easeOutBounce) 1000 (by norm_num)
    (by norm_num [initAnimationOptions])
  refine ⟨?_, ?_, ?_⟩
  · rw [show optimalLines o n = pairSegments (optimalPoints o n) from rfl,
      optimalPoints_eq o n hn hdur]
  · rw [show optimalLines (initAnimationOptions 1000 easeOutBounce) 1000 =
        pairSegments (optimalPoints (initAnimationOptions 1000 easeOutBounce) 1000) from rfl,
      hb]
    have h999 : List.range' 1 (1000 - 1) = 1 :: List.range' 2 998 := List.range'_succ 1 998 1
    rw [h999, List.map_cons, List.cons_append, List.cons_append, pairSegments_head]
    rfl
  · rw [show optimalLines (initAnimationOptions 1000 easeOutBounce) 1000 =
        pairSegments (optimalPoints (initAnimationOptions 1000 easeOutBounce) 1000) from rfl,
      hb]
    exact pairSegments_last_lineTo ⟨1, 1⟩ _ (by simp)

/-- C6 witness: the amended theorem applied at duration 3 with
easeInQuad. -/
theorem C6_optimal_reference_polyline_witness :
    (optimalLines (initAnimationOptions 3 easeInQuad) 3 = pairSegments
      (((⟨0, (initAnimationOptions 3 easeInQuad).fromValue⟩ : Coordinate) ::
        (List.range' 1 (3 - 1)).map
          fun k : ℕ => optimalCurvePoint (initAnimationOptions 3 easeInQuad) (k : ℝ)) ++
        [⟨1, 1⟩])) ∧
    ((optimalLines (initAnimationOptions 1000 easeOutBounce) 1000).head?).map
      (fun seg => seg.lineFrom) = some ⟨0, 0⟩ ∧
    ((optimalLines (initAnimationOptions 1000 easeOutBounce) 1000).getLast?).map
      (fun seg => seg.lineTo) = some ⟨1, 1⟩ :=
  C6_optimal_reference_polyline (initAnimationOptions 3 easeInQuad) 3 (by norm_num)
    (by norm_num [initAnimationOptions])


/-! ## Claim C4 -/

/-- C4: closestCoordinate returns null exactly when the pivot is null or
the list is empty; otherwise it returns an element of the list that
minimizes Euclidean distance to the pivot, the first such element in
list order; and a pivot that coincides exactly with a list element is
itself returned, at distance 0. -/
theorem C4_nearest_point_resolver (coordinates : List Coordinate) (pivot : Option Coordinate) :
    (closestCoordinate coordinates pivot = none ↔ pivot = none ∨ coordinates = []) ∧
    (∀ pv : Coordinate, pivot = some pv →
      ∀ c : Coordinate, closestCoordinate coordinates pivot = some c →
        c ∈ coordinates ∧
        (∀ q ∈ coordinates, euclideanDistance c pv ≤ euclideanDistance q pv) ∧
        ∃ i, ∃ hi : i < coordinates.length, c = coordinates.get ⟨i, hi⟩ ∧
          ∀ j (hj : j < coordinates.length), j < i →
            euclideanDistance c pv < euclideanDistance (coordinates.get ⟨j, hj⟩) pv) ∧
    (∀ pv : Coordinate, pivot = some pv → pv ∈ coordinates →
      closestCoordinate coordinates pivot = some pv ∧
      ∀ c : Coordinate, closestCoordinate coordinates pivot = some c →
        euclideanDistance c pv = 0) := by
  cases pivot with
  | none =>
    refine ⟨by simp [closestCoordinate], ?_, ?_⟩ <;> intro pv hpv <;> simp at hpv
  | some pv =>
    by_cases hnil : coordinates = []
    · subst hnil
      refine ⟨by simp [closestCoordinate, jsMathMin], ?_, ?_⟩
      · intro pv' _ c hc
        simp [closestCoordinate, jsMathMin] at hc
      · intro pv' _ hmem
        simp at hmem
    · have hdlne : coordinates.map (fun point => euclideanDistance point pv) ≠ [] := by
        simpa using hnil
      obtain ⟨m, hm⟩ : ∃ m,
          jsMathMin (coordinates.map (fun point => euclideanDistance point pv)) = some m := by
        cases hj : jsMathMin (coordinates.map (fun point => euclideanDistance point pv)) with
        | none => exact absurd ((jsMathMin_eq_none_iff _).1 hj) hdlne
        | some m => exact ⟨m, rfl⟩
      obtain ⟨hmmem, hmle⟩ := jsMathMin_spec _ m hm
      obtain ⟨i, hi⟩ := findIndexEq_of_mem _ m hmmem
      obtain ⟨hilen, hgeti, hfirst⟩ := findIndexEq_spec _ m i hi
      have hilen' : i < coordinates.length := by simpa using hilen
      have hres : closestCoordinate coordinates (some pv) =
          some (coordinates.get ⟨i, hilen'⟩) := by
        unfold closestCoordinate
        simp only [hm, hi]
        exact List.get?_eq_get hilen'
      have hdisti : euclideanDistance (coordinates.get ⟨i, hilen'⟩) pv = m := by
        rw [← hgeti]
        simp
      refine ⟨by simp [hres, hnil], ?_, ?_⟩
      · intro pv' hpv' c hc
        injection hpv' with heq
        subst heq
        rw [hres] at hc
        obtain rfl : c = coordinates.get ⟨i, hilen'⟩ := by simpa using hc.symm
        refine ⟨List.get_mem _ _ _, ?_, ?_⟩
        · intro q hq
          rw [hdisti]
          exact hmle _ (List.mem_map_of_mem _ hq)
        · refine ⟨i, hilen', rfl, ?_⟩
          intro j hj hji
          have hjlen : j < (coordinates.map (fun point => euclideanDistance point pv)).length := by
            simpa using hj
          have hne := hfirst j hjlen hji
          have hgetj : (coordinates.map (fun point => euclideanDistance point pv)).get
              ⟨j, hjlen⟩ = euclideanDistance (coordinates.get ⟨j, hj⟩) pv := by
            simp
          rw [hgetj] at hne
          have hle' := hmle (euclideanDistance (coordinates.get ⟨j, hj⟩) pv)
            (List.mem_map_of_mem _ (List.get_mem _ _ _))
          rw [hdisti]
          exact lt_of_le_of_ne hle' (fun heq => hne heq.symm)
      · intro pv' hpv' hmem
        injection hpv' with heq
        subst heq
        have hzero_mem : (0 : ℝ) ∈ coordinates.map (fun point => euclideanDistance point pv) := by
          rw [← euclideanDistance_self pv]
          exact List.mem_map_of_mem _ hmem
        have hm0 : m = 0 := by
          have hle0 : m ≤ 0 := hmle 0 hzero_mem
        -- every distance is a square root, hence nonnegative
          obtain ⟨q, _, hqm⟩ := List.mem_map.1 hmmem
          have : 0 ≤ m := hqm ▸ euclideanDistance_nonneg q pv
          linarith
        have hceq : coordinates.get ⟨i, hilen'⟩ = pv :=
          euclideanDistance_eq_zero _ _ (by rw [hdisti, hm0])
        refine ⟨by rw [hres, hceq], ?_⟩
        intro c hc
        rw [hres] at hc
        obtain rfl : c = coordinates.get ⟨i, hilen'⟩ := by simpa using hc.symm
        rw [hdisti, hm0]

/-- C4 witness: the resolver evaluated on a two-point list with the
pivot sitting on the first point. -/
theorem C4_nearest_point_resolver_witness :
    (closestCoordinate [⟨0, 0⟩, ⟨3, 4⟩] (some ⟨0, 0⟩) = none ↔
      (some (⟨0, 0⟩ : Coordinate) = none ∨ ([⟨0, 0⟩, ⟨3, 4⟩] : List Coordinate) = [])) ∧
    closestCoordinate [⟨0, 0⟩, ⟨3, 4⟩] (some ⟨0, 0⟩) = some ⟨0, 0⟩ := by
  have h := C4_nearest_point_resolver [⟨0, 0⟩, ⟨3, 4⟩] (some ⟨0, 0⟩)
  exact ⟨h.1, (h.2.2 ⟨0, 0⟩ rfl (by simp)).1⟩


/-! ## Claim C5 -/

/-- The Screen value createScreen returns whenever the canvas does
provide a 2d context. -/
def okScreen : Screen :=
  { width := 300, height := 300, front := { width := 300, height := 300 },
    cache := { width := 300, height := 300 }, graph := createGraph 300 300 }

theorem initGraphs_aux (hasContext : ℕ → Bool) :
    ∀ (entries : List (String × EasingFn)) (s : ℕ) (acc : List GraphInstance) (i : ℕ),
      i < entries.length → (∀ k, k < i → hasContext (s + k) = true) →
      hasContext (s + i) = false →
      (initGraphs hasContext entries s acc).2 = some contextErrorMessage ∧
      (initGraphs hasContext entries s acc).1 =
        acc ++ (entries.take i).map (fun e => { name := e.1, screen := okScreen }) := by
  intro entries
  induction entries with
  | nil => intro s acc i hi _ _; simp at hi
  | cons e rest ih =>
    intro s acc i hi hok hbad
    obtain ⟨name, f⟩ := e
    rw [initGraphs]
    cases i with
    | zero =>
      have h0 : hasContext s = false := by simpa using hbad
      have hscr : createScreen 300 300 (hasContext s) = Except.error contextErrorMessage := by
        rw [h0]; rfl
      simp [hscr]
    | succ j =>
      have hcs : hasContext s = true := by simpa using hok 0 (Nat.succ_pos j)
      have hscr : createScreen 300 300 (hasContext s) = Except.ok okScreen := by
        rw [hcs]; rfl
      simp only [hscr]
      have hrec := ih (s + 1) (acc ++ [{ name := name, screen := okScreen }]) j
        (by simpa using Nat.lt_of_succ_lt_succ (by simpa using hi))
        (by
          intro k hk
          have := hok (k + 1) (Nat.succ_lt_succ hk)
          rw [show s + 1 + k = s + (k + 1) by omega]
          exact this)
        (by
          rw [show s + 1 + j = s + (j + 1) by omega]
          exact hbad)
      refine ⟨hrec.1, ?_⟩
      rw [hrec.2]
      simp

/-- C5 counterexample: with two graphs and a 2d-context failure at the
first one, init's per-easing loop stops at the failure: no graph at all
is set up (the created-instance list is empty, so the sibling graph is
not set up), and the error escapes the whole loop. -/
theorem C5_sibling_not_set_up_counterexample :
    initGraphs (fun i => decide (i ≠ 0))
        [("easeInQuad", easeInQuad), ("easeOutQuad", easeOutQuad)] 0 [] =
      ([], some contextErrorMessage) := by
  rw [initGraphs]
  have hscr : createScreen 300 300 false = Except.error contextErrorMessage := rfl
  simp [hscr]

/-- C5 amended: a graph whose canvas cannot provide a 2d context makes
createScreen throw inside init's synchronous per-easing map, which
aborts the whole initialization: the error is reported once, the
siblings created before the failing graph remain set up, and the failing
graph and every later sibling are not set up (the loop returns exactly i
instances when graph i is the first failure). -/
theorem C5_context_failure_aborts_init (hasContext : ℕ → Bool)
    (entries : List (String × EasingFn)) (i : ℕ) (hi : i < entries.length)
    (hok : ∀ k, k < i → hasContext k = true) (hbad : hasContext i = false) :
    (initGraphs hasContext entries 0 []).2 = some contextErrorMessage ∧
    (initGraphs hasContext entries 0 []).1 =
      (entries.take i).map (fun e => { name := e.1, screen := okScreen }) := by
  have h := initGraphs_aux hasContext entries 0 [] i hi
    (by intro k hk; simpa using hok k hk) (by simpa using hbad)
  simpa using h

/-- C5 witness: the amended theorem applied to two graphs whose second
canvas has no 2d context. -/
theorem C5_context_failure_aborts_init_witness :
    (initGraphs (fun k => decide (k ≠ 1))
        [("easeInQuad", easeInQuad), ("easeOutQuad", easeOutQuad)] 0 []).2 =
      some contextErrorMessage ∧
    (initGraphs (fun k => decide (k ≠ 1))
        [("easeInQuad", easeInQuad), ("easeOutQuad", easeOutQuad)] 0 []).1 =
      (([("easeInQuad", easeInQuad), ("easeOutQuad", easeOutQuad)].take 1).map
        (fun e => { name := e.1, screen := okScreen })) :=
  C5_context_failure_aborts_init (fun k => decide (k ≠ 1))
    [("easeInQuad", easeInQuad), ("easeOutQuad", easeOutQuad)] 1 (by norm_num)
    (by intro k hk; simp; omega) (by simp)

end
